import Mathlib

/-!
Verification of the task-draft builder in
`src/components/AddTaskDrawer.tsx` (the `AddTaskDrawer` React component).

The component state (`NewTaskData`), its input handlers
(`handleSubtaskChange`, `addSubtask`, `removeSubtask`, `handleDateChange`,
the duration input's `onChange`) and the terminal `handleSubmit` are
embedded as pure Lean functions.  React state updates become explicit
state passing; the two callbacks `onAddTask`/`onClose` become an emitted
event list; `Date.now()` and the viewer's `getTimezoneOffset()` are passed
in as parameters.  JS `Date` values are modelled as whole minutes since
the Unix epoch (JS stores milliseconds; every quantity handled here is a
whole number of minutes), and a date-only input string is modelled by the
calendar day it denotes, counted in days since the epoch.
-/

namespace AddTaskDrawer

/-- JS `String.prototype.trim()`: strips leading and trailing whitespace. -/
def jsTrim (s : String) : String :=
  String.mk (((s.data.dropWhile Char.isWhitespace).reverse.dropWhile
    Char.isWhitespace).reverse)

/-- One entry of the `subtasks` array (source `interface Subtask`). -/
structure Subtask where
  id : Int
  title : String
  completed : Bool
  deriving Repr, DecidableEq

/-- The component state (source `interface NewTaskData`).  `dueDate` is a
JS `Date`, modelled as minutes since the Unix epoch. -/
structure NewTaskData where
  title : String
  listId : Int
  dueDate : Int
  startTime : String
  duration : Int
  isFixed : Bool
  completed : Bool
  important : Bool
  notes : String
  subtasks : List Subtask
  deriving Repr, DecidableEq

/-- The payload type of `onAddTask`, source `Omit<NewTaskData, 'completed'>`:
the same fields as `NewTaskData` except that there is no `completed`
field. -/
structure TaskPayload where
  title : String
  listId : Int
  dueDate : Int
  startTime : String
  duration : Int
  isFixed : Bool
  important : Bool
  notes : String
  subtasks : List Subtask
  deriving Repr, DecidableEq

/-- One available task list (source `interface TaskList`). -/
structure TaskList where
  id : Int
  name : String
  icon : String
  color : String
  description : String
  deriving Repr, DecidableEq

/-- The externally observable effects of `handleSubmit`: a call of the
`onAddTask` callback with its payload, or a call of the `onClose`
callback. -/
inductive DrawerEvent where
  | addTask (payload : TaskPayload)
  | close
  deriving Repr, DecidableEq

/-- Initial `listId` of the `useState` initializer:
`taskLists[0]?.id || 1`.  `taskLists[0]?.id` is `undefined` on an empty
array, and `x || 1` replaces a falsy `x` (for a number: `0`) by `1`. -/
def initListId (taskLists : List TaskList) : Int :=
  match taskLists.head? with
  | some l => if l.id = 0 then 1 else l.id
  | none => 1

/-- The full `useState` initializer of `newTask`.  `initialDueDate ||
new Date()` falls back to the current instant `now` only when the prop is
absent (a `Date` object is always truthy). -/
def initialNewTask (taskLists : List TaskList) (initialDueDate : Option Int)
    (now : Int) : NewTaskData :=
  { title := ""
    listId := initListId taskLists
    dueDate := initialDueDate.getD now
    startTime := ""
    duration := 60
    isFixed := false
    completed := false
    important := false
    notes := ""
    subtasks := [] }

/-- The `finalSubtasks` computation inside `handleSubmit`:
`newTask.subtasks.map((sub, index) => ({ ...sub, id: index }))
.filter(sub => sub.title.trim() !== '')` — note that the re-indexing map
runs BEFORE the filter. -/
def finalSubtasks (subtasks : List Subtask) : List Subtask :=
  (subtasks.enum.map (fun p => { p.2 with id := (p.1 : Int) })).filter
    (fun sub => jsTrim sub.title != "")

/-- The `handleSubmit` handler as the list of emitted events.  The guard
`if (!newTask.title.trim()) return;` aborts (no events) exactly when the
trimmed title is the empty string (the only falsy string); otherwise
`onAddTask` is called once with the normalized payload — built by spreading
`taskData` (the state minus `completed`) and overriding `title`, `notes`
and `subtasks` — and then `onClose` is called once.  No state update is
performed in either branch. -/
def handleSubmit (newTask : NewTaskData) : List DrawerEvent :=
  if jsTrim newTask.title = "" then []
  else
    [DrawerEvent.addTask
      { title := jsTrim newTask.title
        listId := newTask.listId
        dueDate := newTask.dueDate
        startTime := newTask.startTime
        duration := newTask.duration
        isFixed := newTask.isFixed
        important := newTask.important
        notes := jsTrim newTask.notes
        subtasks := finalSubtasks newTask.subtasks },
      DrawerEvent.close]

/-- The `handleSubtaskChange` handler, acting on the `subtasks` field.  The
source copies the array and runs `updatedSubtasks[index].title = value`;
when `index` is out of bounds `updatedSubtasks[index]` is `undefined` and
the assignment throws a `TypeError`, modelled as `none`.  In bounds, the
subtask at `index` gets the new title. -/
def handleSubtaskChange (subtasks : List Subtask) (index : Nat)
    (value : String) : Option (List Subtask) :=
  if h : index < subtasks.length then
    some (subtasks.set index { subtasks.get ⟨index, h⟩ with title := value })
  else
    none

/-- Fallback element for modelling the source's unchecked array index
`subtasks[subtasks.length - 1]` (only read when the array is non-empty). -/
def defaultSubtask : Subtask := { id := 0, title := "", completed := false }

/-- The `addSubtask` handler: appends
`{ id: Date.now(), title: '', completed: false }`; the clock value
`Date.now()` is passed in as `now`. -/
def addSubtask (now : Int) (subtasks : List Subtask) : List Subtask :=
  subtasks ++ [{ id := now, title := "", completed := false }]

/-- The `disabled` condition of the Add Subtask button:
`newTask.subtasks.length > 0 &&
newTask.subtasks[newTask.subtasks.length - 1].title.trim() === ''`. -/
def addSubtaskDisabled (subtasks : List Subtask) : Bool :=
  decide (subtasks.length > 0) &&
    (jsTrim (subtasks.getD (subtasks.length - 1) defaultSubtask).title == "")

/-- The Add Subtask interaction at the interface boundary: the click runs
`addSubtask` unless the button is disabled, in which case nothing
happens. -/
def guardedAddSubtask (now : Int) (subtasks : List Subtask) : List Subtask :=
  if addSubtaskDisabled subtasks then subtasks else addSubtask now subtasks

/-- The `removeSubtask` handler:
`newTask.subtasks.filter((_, i) => i !== index)`. -/
def removeSubtask (subtasks : List Subtask) (index : Nat) : List Subtask :=
  (subtasks.enum.filter (fun p => p.1 != index)).map (fun p => p.2)

/-- The `formatDateForInput` helper:
`date.toISOString().split('T')[0]` — the UTC calendar day of the stored
instant, i.e. the floor of minutes-since-epoch over the 1440 minutes of a
day. -/
def formatDateForInput (t : Int) : Int :=
  Int.fdiv t 1440

/-- JS `new Date(dateString)` on a date-only string (the value of an
`<input type="date">`, e.g. "2024-01-01"): such a string is parsed as UTC
midnight of the calendar day it denotes. -/
def newDateFromDateOnly (day : Int) : Int :=
  day * 1440

/-- The `handleDateChange` handler with the viewer's
`date.getTimezoneOffset()` (minutes, positive west of UTC) passed in as
`tzOffset`: it stores `new Date(date.getTime() + timeZoneOffset)`. -/
def handleDateChange (day : Int) (tzOffset : Int) : Int :=
  newDateFromDateOnly day + tzOffset

/-- Value of a character as a digit, as JS `parseInt` accepts them in
radices up to 16. -/
def digitVal (c : Char) : Option Nat :=
  if '0' ≤ c ∧ c ≤ '9' then some (c.toNat - Char.toNat '0')
  else if 'a' ≤ c ∧ c ≤ 'f' then some (c.toNat - Char.toNat 'a' + 10)
  else if 'A' ≤ c ∧ c ≤ 'F' then some (c.toNat - Char.toNat 'A' + 10)
  else none

/-- Longest-prefix digit scan of JS `parseInt`: accumulates digits valid in
the radix, stops at the first invalid character, and yields `none` (NaN)
when no digit was consumed at all. -/
def parseDigits (radix : Nat) : List Char → Nat → Bool → Option Nat
  | [], acc, seen => if seen then some acc else none
  | c :: rest, acc, seen =>
    match digitVal c with
    | some v =>
      if v < radix then parseDigits radix rest (acc * radix + v) true
      else if seen then some acc else none
    | none => if seen then some acc else none

/-- JS `parseInt(string)` with no radix argument: skip leading whitespace,
read an optional sign, switch to radix 16 after a `0x`/`0X` prefix (else
radix 10), then scan the longest digit prefix; NaN is `none`. -/
def jsParseInt (s : String) : Option Int :=
  let cs := s.data.dropWhile Char.isWhitespace
  let signAndRest : Int × List Char :=
    match cs with
    | '-' :: rest => (-1, rest)
    | '+' :: rest => (1, rest)
    | _ => (1, cs)
  let radixAndRest : Nat × List Char :=
    match signAndRest.2 with
    | '0' :: 'x' :: rest => (16, rest)
    | '0' :: 'X' :: rest => (16, rest)
    | _ => (10, signAndRest.2)
  match parseDigits radixAndRest.1 radixAndRest.2 0 false with
  | some n => some (signAndRest.1 * n)
  | none => none

/-- The duration input's `onChange`:
`duration: parseInt(e.target.value) || 60`.  In JS, `x || 60` yields `60`
exactly when `x` is falsy — for the result of `parseInt`: `NaN` or `0`. -/
def handleDurationChange (newTask : NewTaskData) (value : String) :
    NewTaskData :=
  { newTask with
    duration :=
      match jsParseInt value with
      | none => 60
      | some n => if n = 0 then 60 else n }

/-- One user interaction with the subtask editor, as exposed by the
rendered UI: a click on the (guarded) Add Subtask button at clock value
`now`, an edit of the title input of row `index`, or a click on the delete
button of row `index`. -/
inductive SubtaskOp where
  | add (now : Int)
  | edit (index : Nat) (value : String)
  | remove (index : Nat)
  deriving Repr, DecidableEq

/-- Effect of one interaction on the `subtasks` field.  An `edit` whose
title assignment throws (out-of-bounds index) never reaches `setNewTask`,
so the state is unchanged. -/
def applyOp (subtasks : List Subtask) : SubtaskOp → List Subtask
  | SubtaskOp.add now => guardedAddSubtask now subtasks
  | SubtaskOp.edit index value =>
    (handleSubtaskChange subtasks index value).getD subtasks
  | SubtaskOp.remove index => removeSubtask subtasks index

/-- Effect of a sequence of interactions, first to last. -/
def applyOps (ops : List SubtaskOp) (subtasks : List Subtask) :
    List Subtask :=
  ops.foldl applyOp subtasks

/-- Number of subtasks in a list whose trimmed title is empty. -/
def blankCount (subtasks : List Subtask) : Nat :=
  (subtasks.filter (fun sub => jsTrim sub.title == "")).length

/-- An interaction never blanks a row by editing: `edit` operations carry a
title that is non-empty after trimming (`add` and `remove` are
unconstrained). -/
def opEditNonEmpty : SubtaskOp → Bool
  | SubtaskOp.edit _ value => jsTrim value != ""
  | _ => true

/-- Invariant behind the Add Subtask guard: every subtask except possibly
the last one has a non-empty trimmed title. -/
def lastOnlyBlank (subtasks : List Subtask) : Prop :=
  ∀ sub ∈ subtasks.dropLast, jsTrim sub.title ≠ ""

/-- Property that no subtask of a list is marked completed. -/
def allNotCompleted (subtasks : List Subtask) : Prop :=
  ∀ sub ∈ subtasks, sub.completed = false

/-! General list lemmas used by the development. -/

/-- Indices of `enumFrom m l` all lie at or above `m`, so filtering away a
single index below `m` keeps every entry. -/
theorem enumFrom_filter_ne_of_lt {α : Type _} (l : List α) (m k : Nat)
    (h : k < m) :
    (List.enumFrom m l).filter (fun p => p.1 != k) = List.enumFrom m l := by
  induction l generalizing m with
  | nil => rfl
  | cons a as ih =>
    rw [List.enumFrom_cons, List.filter_cons]
    have hbn : ((m, a).1 != k) = true := by
      simp only [bne_iff_ne, ne_eq]
      omega
    rw [if_pos hbn, ih (m + 1) (by omega)]

/-- Filtering an enumeration by the condition that the index differs from
the `i`-th position, then projecting, erases exactly the `i`-th element. -/
theorem enumFrom_filter_ne_map_snd {α : Type _} (l : List α) (m i : Nat) :
    ((List.enumFrom m l).filter (fun p => p.1 != m + i)).map (fun p => p.2) =
      l.eraseIdx i := by
  induction l generalizing m i with
  | nil => rfl
  | cons a as ih =>
    rw [List.enumFrom_cons, List.filter_cons]
    cases i with
    | zero =>
      have hbn : ((m, a).1 != m + 0) = false := by
        simp only [bne_eq_false_iff_eq]
        omega
      rw [if_neg (by simp [hbn])]
      have hk : (fun p : Nat × α => p.1 != m + 0) = fun p => p.1 != m := by
        funext p
        simp
      rw [hk, enumFrom_filter_ne_of_lt as (m + 1) m (by omega)]
      rw [List.eraseIdx_cons_zero]
      have : List.map (fun p : Nat × α => p.2) (List.enumFrom (m + 1) as) =
          List.map Prod.snd (List.enumFrom (m + 1) as) := rfl
      rw [this, List.enumFrom_map_snd]
    | succ j =>
      have hbn : ((m, a).1 != m + (j + 1)) = true := by
        simp only [bne_iff_ne, ne_eq]
        omega
      rw [if_pos hbn, List.map_cons, List.eraseIdx_cons_succ]
      have hk : (fun p : Nat × α => p.1 != m + (j + 1)) =
          fun p => p.1 != (m + 1) + j := by
        funext p
        have : m + (j + 1) = (m + 1) + j := by omega
        rw [this]
      rw [hk, ih (m + 1) j]

/-- Filtering an enumeration by a condition on the element alone and then
projecting is filtering the plain list. -/
theorem enumFrom_filter_snd_map_snd {α : Type _} (q : α → Bool) (l : List α)
    (n : Nat) :
    ((List.enumFrom n l).filter (fun p => q p.2)).map (fun p => p.2) =
      l.filter q := by
  induction l generalizing n with
  | nil => rfl
  | cons a as ih =>
    rw [List.enumFrom_cons, List.filter_cons, List.filter_cons]
    by_cases h : q a
    · rw [if_pos (by simpa using h), if_pos h, List.map_cons, ih (n + 1)]
    · rw [if_neg (by simpa using h), if_neg h, ih (n + 1)]

/-- Every element of the dropLast of a one-point update is either an
untouched non-last element or the written value. -/
theorem mem_dropLast_set {α : Type _} (l : List α) (i : Nat) (a x : α)
    (hx : x ∈ (l.set i a).dropLast) : x ∈ l.dropLast ∨ x = a := by
  induction l generalizing i with
  | nil => simp at hx
  | cons b bs ih =>
    cases i with
    | zero =>
      cases bs with
      | nil => simp [List.set_cons_zero] at hx
      | cons c cs =>
        rw [List.set_cons_zero, List.dropLast_cons₂] at hx
        rcases List.mem_cons.mp hx with h1 | h1
        · right
          exact h1
        · left
          rw [List.dropLast_cons₂]
          exact List.mem_cons_of_mem _ h1
    | succ j =>
      rw [List.set_cons_succ] at hx
      cases hbs : bs.set j a with
      | nil =>
        rw [hbs, List.dropLast_single] at hx
        simp at hx
      | cons c cs =>
        have hbsne : bs ≠ [] := by
          intro hnil
          rw [hnil] at hbs
          simp at hbs
        rw [hbs] at hx
        rw [List.dropLast_cons_of_ne_nil (by simp)] at hx
        rw [← hbs] at hx
        rcases List.mem_cons.mp hx with h1 | h1
        · left
          rw [List.dropLast_cons_of_ne_nil hbsne]
          exact h1 ▸ List.mem_cons_self _ _
        · rcases ih j h1 with hmem | heq
          · left
            rw [List.dropLast_cons_of_ne_nil hbsne]
            exact List.mem_cons_of_mem _ hmem
          · right
            exact heq

/-- Every element of the dropLast of an index-erasure already appears in
the dropLast of the original list. -/
theorem mem_dropLast_eraseIdx {α : Type _} (l : List α) (i : Nat) (x : α)
    (hx : x ∈ (l.eraseIdx i).dropLast) : x ∈ l.dropLast := by
  induction l generalizing i with
  | nil => simp at hx
  | cons b bs ih =>
    cases i with
    | zero =>
      rw [List.eraseIdx_cons_zero] at hx
      cases bs with
      | nil => simp at hx
      | cons c cs =>
        rw [List.dropLast_cons₂]
        exact List.mem_cons_of_mem _ hx
    | succ j =>
      rw [List.eraseIdx_cons_succ] at hx
      cases hbs : bs.eraseIdx j with
      | nil =>
        rw [hbs, List.dropLast_single] at hx
        simp at hx
      | cons c cs =>
        have hbsne : bs ≠ [] := by
          intro hnil
          rw [hnil] at hbs
          simp at hbs
        rw [hbs, List.dropLast_cons_of_ne_nil (by simp), ← hbs] at hx
        rw [List.dropLast_cons_of_ne_nil hbsne]
        rcases List.mem_cons.mp hx with h1 | h1
        · exact h1 ▸ List.mem_cons_self _ _
        · exact List.mem_cons_of_mem _ (ih j h1)

/-! Bridging lemmas about the embedded handlers. -/

/-- The `removeSubtask` handler erases exactly the indexed element (and is
the identity on an out-of-range index, as `eraseIdx` is). -/
theorem removeSubtask_eq_eraseIdx (subtasks : List Subtask) (index : Nat) :
    removeSubtask subtasks index = subtasks.eraseIdx index := by
  unfold removeSubtask
  rw [List.enum_eq_enumFrom]
  have h := enumFrom_filter_ne_map_snd subtasks 0 index
  simp only [Nat.zero_add] at h
  exact h

/-- The unchecked read `subtasks[subtasks.length - 1]` of the disabled
condition is the last element when the list is non-empty. -/
theorem getD_last_eq_getLast (l : List Subtask) (h : l ≠ []) (d : Subtask) :
    l.getD (l.length - 1) d = l.getLast h := by
  have hlen : l.length - 1 < l.length := by
    cases l with
    | nil => exact absurd rfl h
    | cons a as => simp
  rw [List.getD_eq_getElem l d hlen, List.getLast_eq_getElem]

/-- The Add Subtask button is disabled when the last subtask's trimmed
title is empty. -/
theorem addSubtaskDisabled_eq_true (l : List Subtask) (h : l ≠ [])
    (hb : jsTrim (l.getLast h).title = "") : addSubtaskDisabled l = true := by
  unfold addSubtaskDisabled
  rw [getD_last_eq_getLast l h, hb]
  simp [List.length_pos.mpr h]

/-- The Add Subtask button is enabled when the last subtask's trimmed title
is non-empty. -/
theorem addSubtaskDisabled_eq_false (l : List Subtask) (h : l ≠ [])
    (hb : jsTrim (l.getLast h).title ≠ "") :
    addSubtaskDisabled l = false := by
  unfold addSubtaskDisabled
  rw [getD_last_eq_getLast l h]
  simp [hb]

/-- When the button is enabled on a non-empty list, the last trimmed title
is non-empty. -/
theorem last_title_ne_of_not_disabled (l : List Subtask) (h : l ≠ [])
    (hd : addSubtaskDisabled l = false) :
    jsTrim (l.getLast h).title ≠ "" := by
  intro hb
  rw [addSubtaskDisabled_eq_true l h hb] at hd
  simp at hd

/-! Preservation of the guard invariant by each interaction. -/

/-- A guarded add preserves the invariant: it only fires when the previous
last row is non-blank (or the list is empty), and the row it appends
becomes the new last row. -/
theorem lastOnlyBlank_guardedAdd (now : Int) (s : List Subtask)
    (h : lastOnlyBlank s) : lastOnlyBlank (guardedAddSubtask now s) := by
  unfold guardedAddSubtask
  cases hd : addSubtaskDisabled s with
  | true => simpa using h
  | false =>
    simp only [Bool.false_eq_true, if_false]
    intro sub hsub
    unfold addSubtask at hsub
    rw [List.dropLast_concat] at hsub
    by_cases hne : s = []
    · subst hne
      simp at hsub
    · conv at hsub => rw [← List.dropLast_append_getLast hne]
      rcases List.mem_append.mp hsub with h1 | h1
      · exact h sub h1
      · rw [List.mem_singleton.mp h1]
        exact last_title_ne_of_not_disabled s hne hd

/-- An edit that writes a non-blank title preserves the invariant (and an
out-of-bounds edit throws before any state update). -/
theorem lastOnlyBlank_edit (s : List Subtask) (i : Nat) (v : String)
    (hv : jsTrim v ≠ "") (h : lastOnlyBlank s) :
    lastOnlyBlank ((handleSubtaskChange s i v).getD s) := by
  unfold handleSubtaskChange
  by_cases hi : i < s.length
  · rw [dif_pos hi]
    simp only [Option.getD_some]
    intro sub hsub
    rcases mem_dropLast_set _ _ _ _ hsub with hmem | heq
    · exact h sub hmem
    · rw [heq]
      exact hv
  · rw [dif_neg hi]
    exact h

/-- Removing a row preserves the invariant. -/
theorem lastOnlyBlank_remove (s : List Subtask) (i : Nat)
    (h : lastOnlyBlank s) : lastOnlyBlank (removeSubtask s i) := by
  rw [removeSubtask_eq_eraseIdx]
  intro sub hsub
  exact h sub (mem_dropLast_eraseIdx _ _ _ hsub)

/-- One interaction whose edits are non-blank preserves the invariant. -/
theorem lastOnlyBlank_applyOp (s : List Subtask) (op : SubtaskOp)
    (hop : opEditNonEmpty op = true) (h : lastOnlyBlank s) :
    lastOnlyBlank (applyOp s op) := by
  cases op with
  | add now => exact lastOnlyBlank_guardedAdd now s h
  | edit index value =>
    have hv : jsTrim value ≠ "" := by
      simpa [opEditNonEmpty] using hop
    exact lastOnlyBlank_edit s index value hv h
  | remove index => exact lastOnlyBlank_remove s index h

/-- A whole interaction sequence whose edits are non-blank preserves the
invariant. -/
theorem lastOnlyBlank_applyOps (ops : List SubtaskOp)
    (hops : ∀ op ∈ ops, opEditNonEmpty op = true) (s : List Subtask)
    (h : lastOnlyBlank s) : lastOnlyBlank (applyOps ops s) := by
  induction ops generalizing s with
  | nil => exact h
  | cons op rest ih =>
    exact ih (fun o ho => hops o (List.mem_cons_of_mem _ ho))
      (applyOp s op)
      (lastOnlyBlank_applyOp s op (hops op (List.mem_cons_self _ _)) h)

/-- Under the invariant, at most one subtask has a blank trimmed title. -/
theorem blankCount_le_one (s : List Subtask) (h : lastOnlyBlank s) :
    blankCount s ≤ 1 := by
  by_cases hne : s = []
  · subst hne
    simp [blankCount]
  · unfold blankCount
    rw [← List.dropLast_append_getLast hne, List.filter_append]
    have h1 : s.dropLast.filter (fun sub => jsTrim sub.title == "") = [] := by
      rw [List.filter_eq_nil_iff]
      intro a ha
      simpa using h a ha
    rw [h1, List.nil_append]
    exact le_trans (List.length_filter_le _ _) (by simp)

/-! Membership lemmas for the emitted subtask list. -/

/-- The element component of an enumeration entry is an element of the
underlying list. -/
theorem snd_mem_of_mem_enumFrom {α : Type _} (l : List α) (n : Nat)
    (p : Nat × α) (hp : p ∈ List.enumFrom n l) : p.2 ∈ l := by
  induction l generalizing n with
  | nil => simp at hp
  | cons a as ih =>
    rw [List.enumFrom_cons] at hp
    rcases List.mem_cons.mp hp with h1 | h1
    · rw [h1]
      exact List.mem_cons_self _ _
    · exact List.mem_cons_of_mem _ (ih (n + 1) h1)

/-- Every emitted subtask is a draft subtask with only its id field
rewritten: title and completed are carried over unchanged. -/
theorem mem_finalSubtasks (s : List Subtask) (x : Subtask)
    (hx : x ∈ finalSubtasks s) :
    ∃ y ∈ s, x.title = y.title ∧ x.completed = y.completed := by
  unfold finalSubtasks at hx
  have hx2 := List.mem_of_mem_filter hx
  rcases List.mem_map.mp hx2 with ⟨p, hp, hpx⟩
  rw [List.enum_eq_enumFrom] at hp
  refine ⟨p.2, snd_mem_of_mem_enumFrom s 0 p hp, ?_, ?_⟩
  · rw [← hpx]
  · rw [← hpx]

/-! Preservation of the never-completed invariant. -/

/-- No single interaction marks a subtask completed. -/
theorem allNotCompleted_applyOp (s : List Subtask) (op : SubtaskOp)
    (h : allNotCompleted s) : allNotCompleted (applyOp s op) := by
  cases op with
  | add now =>
    intro sub hsub
    simp only [applyOp] at hsub
    unfold guardedAddSubtask at hsub
    by_cases hd : addSubtaskDisabled s
    · rw [if_pos hd] at hsub
      exact h sub hsub
    · rw [if_neg hd] at hsub
      unfold addSubtask at hsub
      rcases List.mem_append.mp hsub with h1 | h1
      · exact h sub h1
      · rw [List.mem_singleton.mp h1]
  | edit index value =>
    intro sub hsub
    simp only [applyOp] at hsub
    unfold handleSubtaskChange at hsub
    by_cases hi : index < s.length
    · rw [dif_pos hi, Option.getD_some] at hsub
      rcases List.mem_or_eq_of_mem_set hsub with h1 | h1
      · exact h sub h1
      · rw [h1]
        exact h (s.get ⟨index, hi⟩) (List.get_mem s index hi)
    · rw [dif_neg hi] at hsub
      exact h sub hsub
  | remove index =>
    intro sub hsub
    simp only [applyOp] at hsub
    rw [removeSubtask_eq_eraseIdx] at hsub
    exact h sub (List.eraseIdx_subset _ _ hsub)

/-- No interaction sequence marks a subtask completed. -/
theorem allNotCompleted_applyOps (ops : List SubtaskOp) (s : List Subtask)
    (h : allNotCompleted s) : allNotCompleted (applyOps ops s) := by
  induction ops generalizing s with
  | nil => exact h
  | cons op rest ih =>
    exact ih (applyOp s op) (allNotCompleted_applyOp s op h)

/-- Emission preserves the never-completed property. -/
theorem allNotCompleted_finalSubtasks (s : List Subtask)
    (h : allNotCompleted s) : allNotCompleted (finalSubtasks s) := by
  intro x hx
  rcases mem_finalSubtasks s x hx with ⟨y, hy, _, hcomp⟩
  rw [hcomp]
  exact h y hy

/-! Claim theorems. -/

/-- C1 (counterexample): for the date-only input denoting calendar day
19723 (2024-01-01) and a viewer east of UTC whose `getTimezoneOffset()` is
-60 (UTC+1), storing the date via handleDateChange and reformatting it
with formatDateForInput yields day 19722 (2023-12-31) instead of the input
day, so the round trip does not reproduce the input for negative
offsets. -/
theorem c1_date_roundtrip_counterexample :
    formatDateForInput (handleDateChange 19723 (-60)) ≠ 19723 := by
  decide

/-- C1 (amended): the stored-then-redisplayed date equals the input
calendar day for every timezone offset at or west of UTC
(0 ≤ offset < 1440 minutes), but for every offset east of UTC
(-1440 < offset < 0) it is the previous calendar day. -/
theorem c1_date_roundtrip_amended (day tzOffset : Int) :
    (0 ≤ tzOffset → tzOffset < 1440 →
      formatDateForInput (handleDateChange day tzOffset) = day) ∧
    (-1440 < tzOffset → tzOffset < 0 →
      formatDateForInput (handleDateChange day tzOffset) = day - 1) := by
  unfold formatDateForInput handleDateChange newDateFromDateOnly
  constructor
  · intro h1 h2
    rw [Int.fdiv_eq_ediv _ (by norm_num)]
    omega
  · intro h1 h2
    rw [Int.fdiv_eq_ediv _ (by norm_num)]
    omega

/-- C1 (witness): the amended statement at day 19723, once with the
western offset 480 (UTC-8) and once with the eastern offset -60 (UTC+1). -/
theorem c1_date_roundtrip_amended_witness :
    formatDateForInput (handleDateChange 19723 480) = 19723 ∧
    formatDateForInput (handleDateChange 19723 (-60)) = 19723 - 1 :=
  ⟨(c1_date_roundtrip_amended 19723 480).1 (by norm_num) (by norm_num),
   (c1_date_roundtrip_amended 19723 (-60)).2 (by norm_num) (by norm_num)⟩

/-- C2 (counterexample): the interaction sequence add, edit row 0 to "a",
add, edit row 1 to "b", edit row 0 to "" produces the draft subtask titles
["", "b"]; on submission exactly one subtask survives (k = 1) but its id
is 1, not 0, because the source re-indexes BEFORE filtering, so surviving
ids are positions in the full draft list rather than 0..k-1. -/
theorem c2_reindex_counterexample :
    (finalSubtasks (applyOps [SubtaskOp.add 100, SubtaskOp.edit 0 "a",
        SubtaskOp.add 200, SubtaskOp.edit 1 "b", SubtaskOp.edit 0 ""]
        [])).length = 1 ∧
    (finalSubtasks (applyOps [SubtaskOp.add 100, SubtaskOp.edit 0 "a",
        SubtaskOp.add 200, SubtaskOp.edit 1 "b", SubtaskOp.edit 0 ""]
        [])).map Subtask.id ≠ [0] := by
  decide

/-- C2 (amended): the emitted subtask list consists of exactly the draft
subtasks with non-empty trimmed title, in their original relative order,
but the id of each survivor is its position in the full draft list
(dropped blanks included), not the sequential integers 0..k-1. -/
theorem c2_final_subtasks_amended (subtasks : List Subtask) :
    finalSubtasks subtasks =
      (subtasks.enum.filter (fun p => jsTrim p.2.title != "")).map
        (fun p => { p.2 with id := (p.1 : Int) }) ∧
    (finalSubtasks subtasks).map Subtask.title =
      (subtasks.filter (fun sub => jsTrim sub.title != "")).map
        Subtask.title := by
  have hmain : finalSubtasks subtasks =
      (subtasks.enum.filter (fun p => jsTrim p.2.title != "")).map
        (fun p => { p.2 with id := (p.1 : Int) }) := by
    unfold finalSubtasks
    rw [List.filter_map]
    congr 1
  refine ⟨hmain, ?_⟩
  rw [hmain, List.map_map]
  have hcomp : (Subtask.title ∘ fun p : Nat × Subtask =>
      { p.2 with id := (p.1 : Int) }) =
      (Subtask.title ∘ fun p : Nat × Subtask => p.2) :=
    funext fun p => rfl
  rw [hcomp, ← List.map_map, List.enum_eq_enumFrom,
    enumFrom_filter_snd_map_snd (fun sub => jsTrim sub.title != "")
      subtasks 0]

/-- C3 (counterexample): at the empty draft subtask list with the
out-of-bounds index 0, editSubtaskTitle does not return the unchanged
state: the title assignment of the source throws a TypeError (modelled as
`none`), so the operation is not a silent no-op. -/
theorem c3_edit_oob_counterexample :
    handleSubtaskChange [] 0 "x" = none ∧
      handleSubtaskChange [] 0 "x" ≠ some [] := by
  decide

/-- C3 (amended): for every draft state, editSubtaskTitle at any
out-of-bounds index fails with a thrown TypeError (modelled `none`)
instead of silently leaving the state unchanged. -/
theorem c3_edit_oob_amended (subtasks : List Subtask) (index : Nat)
    (value : String) (h : subtasks.length ≤ index) :
    handleSubtaskChange subtasks index value = none := by
  unfold handleSubtaskChange
  rw [dif_neg (by omega)]

/-- C3 (witness): the amended statement at the empty list and index 3. -/
theorem c3_edit_oob_amended_witness :
    handleSubtaskChange [] 3 "x" = none :=
  c3_edit_oob_amended [] 3 "x" (by decide)

/-- C4: when the draft title trims to the empty string, handleSubmit
aborts with no side effect: no onAddTask payload is emitted and no onClose
signal is sent (the handler body also contains no state update, so the
draft is unchanged). -/
theorem c4_submit_empty_title (newTask : NewTaskData)
    (h : jsTrim newTask.title = "") : handleSubmit newTask = [] := by
  unfold handleSubmit
  rw [if_pos h]

/-- C4 (witness): a draft whose title is three spaces emits nothing. -/
theorem c4_submit_empty_title_witness :
    handleSubmit { initialNewTask [] none 0 with title := "   " } = [] :=
  c4_submit_empty_title { initialNewTask [] none 0 with title := "   " }
    (by decide)

/-- C5 (counterexample): the duration input "-5" parses to the negative
integer -5, which is truthy in JS, so `parseInt(value) || 60` stores -5;
the claim requires the default 60 for every non-positive value. -/
theorem c5_duration_counterexample :
    (handleDurationChange (initialNewTask [] none 0) "-5").duration = -5 ∧
    (handleDurationChange (initialNewTask [] none 0) "-5").duration ≠
      60 := by
  decide

/-- C5 (amended): input that does not parse (NaN) or parses to exactly 0
resets durationMinutes to the default 60; every string parsing to a
non-zero integer n — positive or negative — sets durationMinutes to n. -/
theorem c5_duration_amended (newTask : NewTaskData) (value : String) :
    (jsParseInt value = none →
      (handleDurationChange newTask value).duration = 60) ∧
    (jsParseInt value = some 0 →
      (handleDurationChange newTask value).duration = 60) ∧
    (∀ n : Int, jsParseInt value = some n → n ≠ 0 →
      (handleDurationChange newTask value).duration = n) := by
  refine ⟨fun h => ?_, fun h => ?_, fun n h hn => ?_⟩
  · simp [handleDurationChange, h]
  · simp [handleDurationChange, h]
  · simp [handleDurationChange, h, hn]

/-- C5 (witness): the amended statement at the inputs "abc" (NaN), "0"
(parses to 0) and "90" (parses to 90). -/
theorem c5_duration_amended_witness :
    (handleDurationChange (initialNewTask [] none 0) "abc").duration = 60 ∧
    (handleDurationChange (initialNewTask [] none 0) "0").duration = 60 ∧
    (handleDurationChange (initialNewTask [] none 0) "90").duration = 90 :=
  ⟨(c5_duration_amended (initialNewTask [] none 0) "abc").1 (by decide),
   (c5_duration_amended (initialNewTask [] none 0) "0").2.1 (by decide),
   (c5_duration_amended (initialNewTask [] none 0) "90").2.2 90 (by decide)
     (by decide)⟩

/-- C6 (counterexample): the interaction sequence add, edit row 0 to "a",
add, edit row 0 to "" is built from the guarded operations only, starts at
the empty list, and reaches the state ["", ""] in which two subtasks have
an empty trimmed title — the at-most-one-blank invariant does not hold for
all reachable states. -/
theorem c6_blank_invariant_counterexample :
    ¬ blankCount (applyOps [SubtaskOp.add 100, SubtaskOp.edit 0 "a",
        SubtaskOp.add 200, SubtaskOp.edit 0 ""] []) ≤ 1 := by
  decide

/-- C6 (amended): for every interaction sequence from the initial empty
subtask list in which no editSubtaskTitle call writes a title that trims
to empty, at most one subtask of the resulting state has an empty trimmed
title; the unrestricted claim fails because an edit can blank a non-last
row that the Add Subtask guard never re-examines. -/
theorem c6_blank_invariant_amended (ops : List SubtaskOp)
    (hops : ∀ op ∈ ops, opEditNonEmpty op = true) :
    blankCount (applyOps ops []) ≤ 1 :=
  blankCount_le_one _ (lastOnlyBlank_applyOps ops hops []
    (fun sub hsub => absurd hsub (by simp)))

/-- C6 (witness): the amended statement for the sequence add, edit row 0
to "a", add, whose edits are all non-blank. -/
theorem c6_blank_invariant_amended_witness :
    blankCount (applyOps [SubtaskOp.add 1, SubtaskOp.edit 0 "a",
      SubtaskOp.add 2] []) ≤ 1 :=
  c6_blank_invariant_amended
    [SubtaskOp.add 1, SubtaskOp.edit 0 "a", SubtaskOp.add 2] (by decide)

/-- C7: the guarded Add Subtask operation leaves the list unchanged when
it is non-empty and its last element's trimmed title is empty; otherwise
(empty list, or non-blank last title) it appends exactly one subtask with
empty title and completed = false (its id being the clock value), keeping
every existing subtask unchanged. -/
theorem c7_guarded_add (now : Int) (subtasks : List Subtask) :
    (subtasks = [] → guardedAddSubtask now subtasks =
      subtasks ++ [{ id := now, title := "", completed := false }]) ∧
    (∀ h : subtasks ≠ [], jsTrim (subtasks.getLast h).title ≠ "" →
      guardedAddSubtask now subtasks =
        subtasks ++ [{ id := now, title := "", completed := false }]) ∧
    (∀ h : subtasks ≠ [], jsTrim (subtasks.getLast h).title = "" →
      guardedAddSubtask now subtasks = subtasks) := by
  refine ⟨fun hnil => ?_, fun h hb => ?_, fun h hb => ?_⟩
  · subst hnil
    rfl
  · unfold guardedAddSubtask
    rw [addSubtaskDisabled_eq_false subtasks h hb]
    rfl
  · unfold guardedAddSubtask
    rw [addSubtaskDisabled_eq_true subtasks h hb]
    rfl

/-- C7 (witness): all three branches — the empty list, a list with a
non-blank last title, and a list whose last title is a single space. -/
theorem c7_guarded_add_witness :
    guardedAddSubtask 5 [] =
      [{ id := 5, title := "", completed := false }] ∧
    guardedAddSubtask 7 [{ id := 1, title := "a", completed := false }] =
      [{ id := 1, title := "a", completed := false },
       { id := 7, title := "", completed := false }] ∧
    guardedAddSubtask 9 [{ id := 1, title := " ", completed := false }] =
      [{ id := 1, title := " ", completed := false }] :=
  ⟨(c7_guarded_add 5 []).1 rfl,
   (c7_guarded_add 7 [{ id := 1, title := "a", completed := false }]).2.1
     (by decide) (by decide),
   (c7_guarded_add 9 [{ id := 1, title := " ", completed := false }]).2.2
     (by decide) (by decide)⟩

/-- C8: for a draft whose trimmed title is non-empty, handleSubmit emits
exactly one onAddTask payload whose title and notes fields are the trimmed
inputs — the payload's type TaskPayload carries no completed field —
followed by exactly one onClose signal. -/
theorem c8_submit_nonempty (newTask : NewTaskData)
    (h : jsTrim newTask.title ≠ "") :
    handleSubmit newTask =
      [DrawerEvent.addTask
        { title := jsTrim newTask.title
          listId := newTask.listId
          dueDate := newTask.dueDate
          startTime := newTask.startTime
          duration := newTask.duration
          isFixed := newTask.isFixed
          important := newTask.important
          notes := jsTrim newTask.notes
          subtasks := finalSubtasks newTask.subtasks },
        DrawerEvent.close] := by
  unfold handleSubmit
  rw [if_neg h]

/-- C8 (witness): the scenario draft titled "  Buy milk  " with notes
" note " emits one payload with the trimmed fields and then closes. -/
theorem c8_submit_nonempty_witness :
    handleSubmit { initialNewTask [] none 0 with
        title := "  Buy milk  ", notes := " note " } =
      [DrawerEvent.addTask
        { title := "Buy milk"
          listId := 1
          dueDate := 0
          startTime := ""
          duration := 60
          isFixed := false
          important := false
          notes := "note"
          subtasks := [] },
        DrawerEvent.close] := by
  rw [c8_submit_nonempty { initialNewTask [] none 0 with
    title := "  Buy milk  ", notes := " note " } (by decide)]
  decide

/-- C9: the initial listId equals the first supplied list's id only when
that id is truthy (non-zero); on an empty list sequence, or when the first
list's id is 0, it is the constant 1. -/
theorem c9_initial_list_id (taskLists : List TaskList)
    (initialDueDate : Option Int) (now : Int) :
    (taskLists = [] →
      (initialNewTask taskLists initialDueDate now).listId = 1) ∧
    (∀ l rest, taskLists = l :: rest → l.id = 0 →
      (initialNewTask taskLists initialDueDate now).listId = 1) ∧
    (∀ l rest, taskLists = l :: rest → l.id ≠ 0 →
      (initialNewTask taskLists initialDueDate now).listId = l.id) := by
  refine ⟨fun hnil => ?_, fun l rest hcons h0 => ?_, fun l rest hcons h0 => ?_⟩
  · subst hnil
    rfl
  · subst hcons
    simp [initialNewTask, initListId, h0]
  · subst hcons
    simp [initialNewTask, initListId, h0]

/-- C9 (witness): all three branches — no lists, a first list with id 0,
and a first list with id 7. -/
theorem c9_initial_list_id_witness :
    (initialNewTask [] none 0).listId = 1 ∧
    (initialNewTask
      [{ id := 0, name := "Home", icon := "", color := "",
         description := "" }] none 0).listId = 1 ∧
    (initialNewTask
      [{ id := 7, name := "Home", icon := "", color := "",
         description := "" }] none 0).listId = 7 :=
  ⟨(c9_initial_list_id [] none 0).1 rfl,
   (c9_initial_list_id
      [{ id := 0, name := "Home", icon := "", color := "",
         description := "" }] none 0).2.1 _ _ rfl rfl,
   (c9_initial_list_id
      [{ id := 7, name := "Home", icon := "", color := "",
         description := "" }] none 0).2.2 _ _ rfl (by decide)⟩

/-- C10: starting from the drawer's initial empty subtask list, after any
sequence of guarded add, edit and remove interactions every subtask of the
draft has completed = false, and so has every subtask of the payload
handleSubmit emits from that state. -/
theorem c10_subtasks_never_completed (ops : List SubtaskOp) :
    allNotCompleted (applyOps ops []) ∧
      allNotCompleted (finalSubtasks (applyOps ops [])) := by
  have hstate : allNotCompleted (applyOps ops []) :=
    allNotCompleted_applyOps ops [] (fun sub hsub => absurd hsub (by simp))
  exact ⟨hstate, allNotCompleted_finalSubtasks _ hstate⟩

/-- C10 (witness): the invariant applied to the state reached by add then
edit row 0 to "a", at its single subtask. -/
theorem c10_subtasks_never_completed_witness :
    ({ id := 100, title := "a", completed := false } : Subtask).completed =
      false :=
  (c10_subtasks_never_completed [SubtaskOp.add 100, SubtaskOp.edit 0 "a"]).1
    { id := 100, title := "a", completed := false } (by decide)

end AddTaskDrawer
